import Mathlib

/-!
Verification development for the Market Radar 360 ingestion pipeline
(`scripts/utils.py`, `scripts/fetch_13f.py`, `scripts/fetch_congress.py`,
`scripts/fetch_flows.py`, `scripts/fetch_insiders.py`, `scripts/fetch_macro.py`,
`scripts/fetch_sentiment.py`).

Modelling conventions:
* Python dictionaries that carry document / metadata payloads are modelled as
  association lists `List (String × Value)` over a JSON-like `Value` type;
  `dict.update` keeps the position of an existing key and appends new keys.
* Python floats are modelled as exact rationals `ℚ`; `float(...)` applied to a
  decimal numeral string is modelled by `pyFloat` (sign, digits, optional
  fractional part, surrounding whitespace).  A Python exception caught by a
  bare `except` is modelled by the `Option`/fallback structure of the
  corresponding definition.
* `str.lower` / `str.isalnum` are modelled on the ASCII range
  (`lowerChar` / `pyIsAlnum`), which covers every string the scripts build.
* Real wall-clock time (`datetime.utcnow().isoformat()`) is passed in as an
  explicit `nowIso : String` argument; `get_timestamp` appends the `"Z"`
  marker to it.
* Network fetches return data modelled as explicit list arguments to the
  `fetch_all` functions; the sink writer is modelled as a function argument
  returning the success bit of the write, and the save functions additionally
  report which document (if any) was handed to the writer.
-/

namespace MarketRadar

/-- JSON-like values carried by documents and metadata. -/
inductive Value where
  | null : Value
  | bool (b : Bool) : Value
  | num (q : ℚ) : Value
  | str (s : String) : Value
  | arr (vs : List Value) : Value
  | obj (fields : List (String × Value)) : Value

/-- First-match association-list lookup (Python `dict` access by key). -/
def lookupKey {β : Type} (k : String) : List (String × β) → Option β
  | [] => none
  | (k', v) :: rest => if k = k' then some v else lookupKey k rest

/-- One step of Python `dict.update`: an existing key keeps its position and
gets the new value, a new key is appended at the end. -/
def updateOne {β : Type} (base : List (String × β)) (kv : String × β) :
    List (String × β) :=
  if base.any (fun p => p.1 = kv.1) then
    base.map (fun p => if p.1 = kv.1 then kv else p)
  else
    base ++ [kv]

/-- Python `dict.update(kwargs)` over association lists. -/
def pyDictUpdate {β : Type} (base kwargs : List (String × β)) :
    List (String × β) :=
  kwargs.foldl updateOne base

/-- `utils.get_timestamp`: the current UTC time in ISO format with a trailing
`"Z"`; the current time is the explicit argument `nowIso`. -/
def getTimestamp (nowIso : String) : String :=
  nowIso ++ "Z"

/-- `utils.create_metadata(total_count, **kwargs)`: builds
`{"last_updated": get_timestamp(), "total_count": total_count}` and then
merges `kwargs` into it with `dict.update`. -/
def createMetadata (nowIso : String) (totalCount : ℚ)
    (kwargs : List (String × Value)) : List (String × Value) :=
  pyDictUpdate
    [("last_updated", Value.str (getTimestamp nowIso)),
     ("total_count", Value.num totalCount)]
    kwargs

/-- `utils.create_metadata` called without a `total_count` argument: the
Python default `total_count=0` applies. -/
def createMetadataDefault (nowIso : String)
    (kwargs : List (String × Value)) : List (String × Value) :=
  createMetadata nowIso 0 kwargs

/-- `utils.DataValidator`: holds the schemas loaded at construction time,
keyed by schema name (the file stem).  The schema representation `σ` and the
document representation `δ` are parameters; `jsonschema.validate` is passed
in as the `check` argument of `validate`. -/
structure DataValidator (σ : Type) where
  schemas : List (String × σ)

/-- `DataValidator.validate(data, schema_name)`: an unregistered schema name
returns `false`; a registered one runs the structural check.  (In the source
the registered branch logs and returns `true`/`false`; the unregistered
branch returns `false` before any validation runs, so it cannot raise.) -/
def DataValidator.validate {σ δ : Type} (check : σ → δ → Bool)
    (v : DataValidator σ) (data : δ) (schemaName : String) : Bool :=
  match lookupKey schemaName v.schemas with
  | none => false
  | some sch => check sch data

/-! ### ASCII models of the Python string primitives -/

/-- Uppercase/lowercase ASCII pairs, the table behind the `str.lower` model. -/
def lowerTable : List (Char × Char) :=
  [('A', 'a'), ('B', 'b'), ('C', 'c'), ('D', 'd'), ('E', 'e'), ('F', 'f'),
   ('G', 'g'), ('H', 'h'), ('I', 'i'), ('J', 'j'), ('K', 'k'), ('L', 'l'),
   ('M', 'm'), ('N', 'n'), ('O', 'o'), ('P', 'p'), ('Q', 'q'), ('R', 'r'),
   ('S', 's'), ('T', 't'), ('U', 'u'), ('V', 'v'), ('W', 'w'), ('X', 'x'),
   ('Y', 'y'), ('Z', 'z')]

/-- First-match lookup in a character table. -/
def lookupChar (c : Char) : List (Char × Char) → Option Char
  | [] => none
  | (a, b) :: rest => if c = a then some b else lookupChar c rest

/-- `str.lower` on one character (ASCII model): an uppercase ASCII letter maps
to its lowercase partner, everything else is unchanged. -/
def lowerChar (c : Char) : Char :=
  (lookupChar c lowerTable).getD c

/-- `str.lower` on a string (character list). -/
def pyLower (cs : List Char) : List Char :=
  cs.map lowerChar

/-- `str.isalnum` on one character (ASCII model). -/
def pyIsAlnum (c : Char) : Bool :=
  ('0' ≤ c && c ≤ '9') || ('a' ≤ c && c ≤ 'z') || ('A' ≤ c && c ≤ 'Z')

/-- The 29 characters Python's `str.isspace()` accepts (and hence the
whitespace notion of `str.split()` with no arguments): the ASCII whitespace
codepoints 0x09-0x0D, the separators 0x1C-0x1F, the space 0x20, NEL 0x85,
NBSP 0xA0, the Ogham space 0x1680, the typographic spaces 0x2000-0x200A,
the line and paragraph separators 0x2028/0x2029, the narrow no-break space
0x202F, the medium mathematical space 0x205F and the ideographic space
0x3000. -/
def pySpaceChars : List Char :=
  ['\x09', '\x0a', '\x0b', '\x0c', '\x0d',
   '\x1c', '\x1d', '\x1e', '\x1f', '\x20',
   '\x85', '\xa0', '\u1680',
   '\u2000', '\u2001', '\u2002', '\u2003', '\u2004', '\u2005',
   '\u2006', '\u2007', '\u2008', '\u2009', '\u200a',
   '\u2028', '\u2029', '\u202f', '\u205f', '\u3000']

/-- Python `str.isspace()` on one character — the whitespace notion used by
`str.split()` with no arguments. -/
def pyIsSpace (c : Char) : Bool :=
  pySpaceChars.any (fun w => c = w)

/-- One step of the fold behind `str.split()` (split on runs of
`str.isspace()` characters, dropping empty tokens): the accumulator is the
token currently being built (reading from the right) together with the
completed tokens. -/
def splitWsStep (c : Char) (acc : List Char × List (List Char)) :
    List Char × List (List Char) :=
  if pyIsSpace c then
    match acc.1 with
    | [] => ([], acc.2)
    | t => ([], t :: acc.2)
  else
    (c :: acc.1, acc.2)

/-- Python `str.split()` with no arguments: split on runs of `str.isspace()`
characters and drop empty tokens. -/
def pySplitWs (cs : List Char) : List (List Char) :=
  match cs.foldr splitWsStep ([], []) with
  | ([], toks) => toks
  | (t, toks) => t :: toks

/-! ### `fetch_13f.Fund13FFetcher._create_slug` -/

/-- `Fund13FFetcher._create_slug` on character lists:
`fund_name.split()[0].lower()` filtered to alphanumerics.  `none` models the
`IndexError` raised by `[0]` when `split()` returns no token. -/
def createSlugChars (fundName : List Char) : Option (List Char) :=
  match pySplitWs fundName with
  | [] => none
  | t :: _ => some ((pyLower t).filter pyIsAlnum)

/-- `Fund13FFetcher._create_slug` on strings. -/
def createSlug (fundName : String) : Option String :=
  (createSlugChars fundName.data).map List.asString

/-! ### `fetch_congress.CongressDataFetcher._parse_amount_range` -/

/-- `amount_str.replace("$", "").replace(",", "")`. -/
def cleanAmount (cs : List Char) : List Char :=
  (cs.filter (fun c => c ≠ '$')).filter (fun c => c ≠ ',')

/-- Python `str.split(sep)` for a one-character separator: always returns at
least one (possibly empty) piece. -/
def splitOnChar (sep : Char) : List Char → List (List Char)
  | [] => [[]]
  | c :: rest =>
    if c = sep then
      [] :: splitOnChar sep rest
    else
      match splitOnChar sep rest with
      | [] => [[c]]
      | p :: ps => (c :: p) :: ps

/-- Python `str.strip()`: drop leading and trailing whitespace. -/
def trimChars (cs : List Char) : List Char :=
  ((cs.dropWhile Char.isWhitespace).reverse.dropWhile Char.isWhitespace).reverse

/-- Numeric value of a digit string. -/
def natVal (cs : List Char) : ℕ :=
  cs.foldl (fun acc c => acc * 10 + (c.toNat - '0'.toNat)) 0

/-- Value of the fractional digits `ds` of a decimal numeral `x.ds`. -/
def fracVal (ds : List Char) : ℚ :=
  (natVal ds : ℚ) / (10 : ℚ) ^ ds.length

/-- Unsigned part of the `float(...)` model: digits with an optional decimal
point, at least one digit overall, nothing else. -/
def pyFloatCore (cs : List Char) : Option ℚ :=
  let intPart := cs.takeWhile Char.isDigit
  match cs.dropWhile Char.isDigit with
  | [] => if intPart.isEmpty then none else some (natVal intPart)
  | '.' :: rest2 =>
    let fracPart := rest2.takeWhile Char.isDigit
    if (rest2.dropWhile Char.isDigit).isEmpty then
      if intPart.isEmpty && fracPart.isEmpty then none
      else some ((natVal intPart : ℚ) + fracVal fracPart)
    else none
  | _ => none

/-- Model of Python `float(s)` on decimal numeral strings: surrounding
whitespace is ignored, then an optional sign and a decimal numeral.  `none`
models the `ValueError` raised on anything else. -/
def pyFloat (cs : List Char) : Option ℚ :=
  match trimChars cs with
  | [] => none
  | c :: rest =>
    if c = '+' then pyFloatCore rest
    else if c = '-' then (pyFloatCore rest).map (fun q => -q)
    else pyFloatCore (c :: rest)

/-- `CongressDataFetcher._parse_amount_range` on character lists: strip `$`
and commas; a string containing a hyphen is split at hyphens and the first
two pieces are parsed as floats; otherwise the whole string is parsed; any
parse failure (the `except` branch) yields `(0, 0)`. -/
def parseAmountRangeChars (cs : List Char) : ℚ × ℚ :=
  let cleaned := cleanAmount cs
  if '-' ∈ cleaned then
    match splitOnChar '-' cleaned with
    | p0 :: p1 :: _ =>
      match pyFloat (trimChars p0), pyFloat (trimChars p1) with
      | some a, some b => (a, b)
      | _, _ => (0, 0)
    | _ => (0, 0)
  else
    match pyFloat (trimChars cleaned) with
    | some v => (v, v)
    | none => (0, 0)

/-- `CongressDataFetcher._parse_amount_range` on strings. -/
def parseAmountRange (s : String) : ℚ × ℚ :=
  parseAmountRangeChars s.data

/-! ### `fetch_congress.CongressDataFetcher._normalize_transaction_type` -/

/-- Does `needle` occur at the head of `hay`? -/
def leadsWith : List Char → List Char → Bool
  | [], _ => true
  | _ :: _, [] => false
  | a :: as_, b :: bs => a = b && leadsWith as_ bs

/-- Python's `needle in hay` substring test on character lists. -/
def containsSeq (hay needle : List Char) : Bool :=
  match hay with
  | [] => needle.isEmpty
  | _ :: rest => leadsWith needle hay || containsSeq rest needle

/-- `CongressDataFetcher._normalize_transaction_type`: lower-case the raw
type and bucket it by substring match, defaulting to `"purchase"`. -/
def normalizeTransactionType (rawType : String) : String :=
  let l := pyLower rawType.data
  if containsSeq l "purchase".data || containsSeq l "buy".data then "purchase"
  else if containsSeq l "sale".data || containsSeq l "sell".data then "sale"
  else if containsSeq l "exchange".data then "exchange"
  else "purchase"

/-! ### Congress records and the aggregate step -/

/-- A normalized congressional transaction
(`CongressDataFetcher._normalize_transaction` output).  The `date` field is
`Option String` because the aggregate step reads it with `x.get("date", "")`,
which tolerates a missing key; normalization always stores `some` date
(defaulting to the empty string). -/
structure Transaction where
  person : String
  chamber : String
  ticker : String
  sector : String
  transaction_type : String
  amount_range : String
  date : Option String
  disclosure_date : String
  link : String
  amount_min : ℚ
  amount_max : ℚ

/-- The sort key `x.get("date", "")` used by `fetch_all`. -/
def dateKey (t : Transaction) : String :=
  t.date.getD ""

/-- Stable insertion into a descending-by-key list: the new element goes
after every element with a strictly larger key and after earlier elements
with an equal key. -/
def insertDesc {α : Type} (key : α → String) (r : α) : List α → List α
  | [] => [r]
  | x :: xs =>
    if key r < key x then x :: insertDesc key r xs
    else r :: x :: xs

/-- `list.sort(key=..., reverse=True)`: the stable descending sort by a
string key. -/
def sortByKeyDesc {α : Type} (key : α → String) : List α → List α
  | [] => []
  | x :: xs => insertDesc key x (sortByKeyDesc key xs)

/-- The document built by `CongressDataFetcher.fetch_all`. -/
structure CongressDoc where
  metadata : List (String × Value)
  transactions : List Transaction

/-- `CongressDataFetcher.fetch_all`: concatenate the House and Senate
transaction lists, sort descending by date, and attach metadata with the
total and per-chamber counts and the date range. -/
def congressFetchAll (nowIso : String)
    (houseTransactions senateTransactions : List Transaction) : CongressDoc :=
  let allTransactions :=
    sortByKeyDesc dateKey (houseTransactions ++ senateTransactions)
  { metadata :=
      createMetadata nowIso (allTransactions.length : ℚ)
        [("house_count", Value.num (houseTransactions.length : ℚ)),
         ("senate_count", Value.num (senateTransactions.length : ℚ)),
         ("date_range", Value.obj
           [("from", Value.str
              (match allTransactions.getLast? with
               | some t => dateKey t
               | none => "")),
            ("to", Value.str
              (match allTransactions.head? with
               | some t => dateKey t
               | none => ""))])],
    transactions := allTransactions }

/-! ### Insider records (`fetch_insiders`) -/

/-- An insider (Form 4) transaction record.  As with congress records, the
date is read by the sort with `x.get("date", "")`, so it is optional here;
the remaining fields of the sample records are kept as an association
list. -/
structure InsiderRec where
  date : Option String
  fields : List (String × Value)

/-- The sort key `x.get("date", "")` for insider records. -/
def insiderDateKey (r : InsiderRec) : String :=
  r.date.getD ""

/-- The document built by `InsiderDataFetcher.fetch_all`. -/
structure InsidersDoc where
  metadata : List (String × Value)
  transactions : List InsiderRec

/-- `InsiderDataFetcher.fetch_all`: sort the fetched transactions descending
by date and attach metadata with the total count. -/
def insidersFetchAll (nowIso : String)
    (transactions : List InsiderRec) : InsidersDoc :=
  let sorted := sortByKeyDesc insiderDateKey transactions
  { metadata := createMetadata nowIso (sorted.length : ℚ) [],
    transactions := sorted }

/-! ### Flow records (`fetch_flows`) -/

/-- The document built by `FlowDataFetcher.fetch_all`. -/
structure FlowsDoc where
  metadata : List (String × Value)
  etf_flows : List Value
  options : List Value

/-- `FlowDataFetcher.fetch_all`: attach metadata carrying only the
per-sub-source counts (`create_metadata` is called without `total_count`, so
the default `0` applies) to the two record lists. -/
def flowsFetchAll (nowIso : String)
    (etfFlows optionsData : List Value) : FlowsDoc :=
  { metadata :=
      createMetadataDefault nowIso
        [("etf_count", Value.num (etfFlows.length : ℚ)),
         ("options_count", Value.num (optionsData.length : ℚ))],
    etf_flows := etfFlows,
    options := optionsData }

/-- `FlowDataFetcher.fetch_etf_flows`: the sample ETF flow records built by
the source (the `date` field is `datetime.now().strftime("%Y-%m-%d")`,
passed in as `today`). -/
def sampleEtfFlows (today : String) : List Value :=
  [Value.obj
     [("ticker", Value.str "SPY"),
      ("name", Value.str "SPDR S&P 500 ETF"),
      ("flow_1d", Value.num (-250000000)),
      ("flow_5d", Value.num (-1200000000)),
      ("flow_30d", Value.num 3500000000),
      ("aum", Value.num 450000000000),
      ("date", Value.str today)],
   Value.obj
     [("ticker", Value.str "QQQ"),
      ("name", Value.str "Invesco QQQ Trust"),
      ("flow_1d", Value.num 150000000),
      ("flow_5d", Value.num 800000000),
      ("flow_30d", Value.num 5200000000),
      ("aum", Value.num 250000000000),
      ("date", Value.str today)],
   Value.obj
     [("ticker", Value.str "IWM"),
      ("name", Value.str "iShares Russell 2000 ETF"),
      ("flow_1d", Value.num (-50000000)),
      ("flow_5d", Value.num (-200000000)),
      ("flow_30d", Value.num (-1500000000)),
      ("aum", Value.num 65000000000),
      ("date", Value.str today)]]

/-- `FlowDataFetcher.fetch_options_data`: the sample options records built by
the source. -/
def sampleOptionsData (today : String) : List Value :=
  [Value.obj
     [("ticker", Value.str "SPY"),
      ("total_volume", Value.num 8500000),
      ("call_volume", Value.num 5000000),
      ("put_volume", Value.num 3500000),
      ("put_call_ratio", Value.num (70 / 100)),
      ("total_oi", Value.num 15000000),
      ("avg_volume_30d", Value.num 6500000),
      ("volume_anomaly", Value.bool true),
      ("date", Value.str today)],
   Value.obj
     [("ticker", Value.str "AAPL"),
      ("total_volume", Value.num 1200000),
      ("call_volume", Value.num 800000),
      ("put_volume", Value.num 400000),
      ("put_call_ratio", Value.num (50 / 100)),
      ("total_oi", Value.num 2500000),
      ("avg_volume_30d", Value.num 950000),
      ("volume_anomaly", Value.bool true),
      ("date", Value.str today)],
   Value.obj
     [("ticker", Value.str "TSLA"),
      ("total_volume", Value.num 2000000),
      ("call_volume", Value.num 1400000),
      ("put_volume", Value.num 600000),
      ("put_call_ratio", Value.num (43 / 100)),
      ("total_oi", Value.num 3200000),
      ("avg_volume_30d", Value.num 1800000),
      ("volume_anomaly", Value.bool false),
      ("date", Value.str today)]]

/-! ### Sentiment (`fetch_sentiment.SentimentDataFetcher`) -/

/-- The fixed weight of the VIX-derived component. -/
def weightVix : ℚ := 30 / 100

/-- The fixed weight of the put/call-ratio-derived component. -/
def weightPutCall : ℚ := 25 / 100

/-- The fixed weight of the momentum-derived component. -/
def weightMomentum : ℚ := 25 / 100

/-- The fixed weight of the safe-haven-derived component. -/
def weightSafeHaven : ℚ := 20 / 100

/-- The weighted linear combination computed by
`SentimentDataFetcher.calculate_fear_greed_index` from the four normalized
component scores. -/
def fearGreedScore (vixNorm putCallNorm momentumNorm safeHavenNorm : ℚ) : ℚ :=
  vixNorm * weightVix + putCallNorm * weightPutCall +
    momentumNorm * weightMomentum + safeHavenNorm * weightSafeHaven

/-- The five-band classification of the score into a label and a trading
signal (`calculate_fear_greed_index`, the `if`/`elif` chain). -/
def classifySentiment (score : ℚ) : String × String :=
  if score ≤ 20 then ("Extreme Fear", "contrarian_buy")
  else if score ≤ 40 then ("Fear", "cautious")
  else if score ≤ 60 then ("Neutral", "neutral")
  else if score ≤ 80 then ("Greed", "cautious")
  else ("Extreme Greed", "contrarian_sell")

/-- The normalized VIX component for the hard-coded sample input
`vix_value = 18.5`: `max(0, min(100, 100 - (vix_value - 10) * 5))`. -/
def vixNormalizedSample : ℚ :=
  max 0 (min 100 (100 - (185 / 10 - 10) * 5))

/-- The normalized put/call component for the sample input
`put_call_ratio = 0.75`: `max(0, min(100, 100 - (ratio - 0.5) * 100))`. -/
def putCallNormalizedSample : ℚ :=
  max 0 (min 100 (100 - (75 / 100 - 50 / 100) * 100))

/-- The normalized momentum component for the sample input
`market_momentum = 0.65`: `momentum * 100`. -/
def momentumNormalizedSample : ℚ :=
  (65 / 100) * 100

/-- The normalized safe-haven component for the sample input
`safe_haven_demand = 0.35`: `(1 - demand) * 100`. -/
def safeHavenNormalizedSample : ℚ :=
  (1 - 35 / 100) * 100

/-! ### Save operations (validate-then-write versus direct write)

Each save model takes the validator (with the structural check function) and
the sink writer, modelled as a function returning the success bit of the
write.  The result records which document (if any) was handed to the writer,
together with the boolean returned by `save`. -/

/-- `CongressDataFetcher.save`: validate against the `"congress"` schema; on
failure return `False` without writing, otherwise write. -/
def congressSave {σ δ : Type} (check : σ → δ → Bool) (v : DataValidator σ)
    (data : δ) (writeOk : δ → Bool) : Option δ × Bool :=
  if v.validate check data "congress" then (some data, writeOk data)
  else (none, false)

/-- `InsiderDataFetcher.save`: validate against the `"insiders"` schema; on
failure return `False` without writing, otherwise write. -/
def insidersSave {σ δ : Type} (check : σ → δ → Bool) (v : DataValidator σ)
    (data : δ) (writeOk : δ → Bool) : Option δ × Bool :=
  if v.validate check data "insiders" then (some data, writeOk data)
  else (none, false)

/-- `MacroDataFetcher.save`: validate against the `"macro"` schema; on
failure return `False` without writing, otherwise write. -/
def macroDomainSave {σ δ : Type} (check : σ → δ → Bool) (v : DataValidator σ)
    (data : δ) (writeOk : δ → Bool) : Option δ × Bool :=
  if v.validate check data "macro" then (some data, writeOk data)
  else (none, false)

/-- `FlowDataFetcher.save`: writes directly, with no validation step
(the source comment says "bez walidacji - brak schematu"). -/
def flowsSave {δ : Type} (data : δ) (writeOk : δ → Bool) : Option δ × Bool :=
  (some data, writeOk data)

/-- `SentimentDataFetcher.save`: writes directly, with no validation step. -/
def sentimentSave {δ : Type} (data : δ) (writeOk : δ → Bool) :
    Option δ × Bool :=
  (some data, writeOk data)

/-- `Fund13FFetcher.save_all`: for each `(slug, document)` pair, validate
against the `"fund_13f"` schema; a failing document is skipped (not written)
and flips the overall success flag, a passing one is written.  Returns the
list of written `(slug, document)` pairs and the overall success flag. -/
def saveAll13F {σ δ : Type} (check : σ → δ → Bool) (v : DataValidator σ)
    (writeOk : String → δ → Bool) :
    List (String × δ) → List (String × δ) × Bool
  | [] => ([], true)
  | (slug, d) :: rest =>
    let tail := saveAll13F check v writeOk rest
    if v.validate check d "fund_13f" then
      ((slug, d) :: tail.1, writeOk slug d && tail.2)
    else
      (tail.1, false)

/-! ## Association-list lemmas -/

/-- Replacing the value at key `k'` does not change lookups at `k ≠ k'`. -/
theorem lookupKey_map_replace {β : Type} (l : List (String × β))
    (k k' : String) (v : β) (h : k ≠ k') :
    lookupKey k (l.map (fun p => if p.1 = k' then (k', v) else p))
      = lookupKey k l := by
  induction l with
  | nil => rfl
  | cons p rest ih =>
    obtain ⟨a, b⟩ := p
    by_cases ha : a = k'
    · subst ha
      simp only [List.map_cons]
      rw [if_pos trivial]
      simp only [lookupKey]
      rw [if_neg h, if_neg h]
      exact ih
    · simp only [List.map_cons]
      rw [if_neg ha]
      simp only [lookupKey]
      by_cases hk : k = a
      · rw [if_pos hk, if_pos hk]
      · rw [if_neg hk, if_neg hk]
        exact ih

/-- Appending an entry with key `k'` does not change lookups at `k ≠ k'`. -/
theorem lookupKey_append_single_ne {β : Type} (l : List (String × β))
    (k k' : String) (v : β) (h : k ≠ k') :
    lookupKey k (l ++ [(k', v)]) = lookupKey k l := by
  induction l with
  | nil => simp [lookupKey, h]
  | cons p rest ih =>
    obtain ⟨a, b⟩ := p
    by_cases hk : k = a <;> simp [lookupKey, hk, ih]

/-- One `dict.update` step with key `k'` does not change lookups at
`k ≠ k'`. -/
theorem lookupKey_updateOne_ne {β : Type} (base : List (String × β))
    (k k' : String) (v : β) (h : k ≠ k') :
    lookupKey k (updateOne base (k', v)) = lookupKey k base := by
  unfold updateOne
  split
  · exact lookupKey_map_replace base k k' v h
  · exact lookupKey_append_single_ne base k k' v h

/-- `dict.update(kwargs)` does not change lookups at keys absent from
`kwargs`. -/
theorem lookupKey_pyDictUpdate_none {β : Type}
    (kwargs : List (String × β)) (base : List (String × β)) (k : String)
    (h : lookupKey k kwargs = none) :
    lookupKey k (pyDictUpdate base kwargs) = lookupKey k base := by
  induction kwargs generalizing base with
  | nil => rfl
  | cons kv rest ih =>
    obtain ⟨k', v⟩ := kv
    have hne : k ≠ k' := by
      intro e
      simp [lookupKey, e] at h
    have hrest : lookupKey k rest = none := by
      simpa [lookupKey, hne] using h
    calc lookupKey k (pyDictUpdate (updateOne base (k', v)) rest)
        = lookupKey k (updateOne base (k', v)) := ih (updateOne base (k', v)) hrest
      _ = lookupKey k base := lookupKey_updateOne_ne base k k' v hne

/-! ## Claim C6 — unregistered schema names fail closed -/

/-- Claim C6: for every document and every schema name that is not registered
in the Schema Registry, `DataValidator.validate` returns `false` regardless
of the document's content (and, being a total function here, never raises:
the source returns `False` before any validation call on this branch). -/
theorem validate_unregistered_fails_closed (σ δ : Type) (check : σ → δ → Bool)
    (v : DataValidator σ) (data : δ) (schemaName : String)
    (h : lookupKey schemaName v.schemas = none) :
    v.validate check data schemaName = false := by
  unfold DataValidator.validate
  rw [h]

/-- Witness for C6: the empty registry rejects the name `"flows"` for a
concrete document. -/
theorem validate_unregistered_fails_closed_witness :
    lookupKey "flows" ([] : List (String × Unit)) = none ∧
    DataValidator.validate (fun (_ : Unit) (_ : ℕ) => true) ⟨[]⟩ 0 "flows"
      = false :=
  ⟨rfl,
   validate_unregistered_fails_closed Unit ℕ (fun _ _ => true) ⟨[]⟩ 0 "flows"
     rfl⟩

/-! ## Claim C7 — sentiment weights and classification bands -/

/-- Claim C7: the synthetic sentiment index is the weighted linear
combination of the four normalized component scores with the fixed weights
0.30 / 0.25 / 0.25 / 0.20 summing to 1, and every score falls in exactly one
of the five classification bands with the stated label and signal. -/
theorem fear_greed_weights_and_bands :
    weightVix + weightPutCall + weightMomentum + weightSafeHaven = 1 ∧
    (∀ v p m s : ℚ, fearGreedScore v p m s =
      v * (30 / 100) + p * (25 / 100) + m * (25 / 100) + s * (20 / 100)) ∧
    (∀ x : ℚ, x ≤ 20 →
      classifySentiment x = ("Extreme Fear", "contrarian_buy")) ∧
    (∀ x : ℚ, 20 < x → x ≤ 40 → classifySentiment x = ("Fear", "cautious")) ∧
    (∀ x : ℚ, 40 < x → x ≤ 60 →
      classifySentiment x = ("Neutral", "neutral")) ∧
    (∀ x : ℚ, 60 < x → x ≤ 80 → classifySentiment x = ("Greed", "cautious")) ∧
    (∀ x : ℚ, 80 < x →
      classifySentiment x = ("Extreme Greed", "contrarian_sell")) ∧
    (∀ x : ℚ, x ≤ 20 ∨ (20 < x ∧ x ≤ 40) ∨ (40 < x ∧ x ≤ 60) ∨
      (60 < x ∧ x ≤ 80) ∨ 80 < x) := by
  refine ⟨by norm_num [weightVix, weightPutCall, weightMomentum, weightSafeHaven],
    fun v p m s => rfl, fun x h => ?_, fun x h1 h2 => ?_, fun x h1 h2 => ?_,
    fun x h1 h2 => ?_, fun x h => ?_, fun x => ?_⟩
  · unfold classifySentiment
    rw [if_pos h]
  · unfold classifySentiment
    rw [if_neg (not_le.mpr h1), if_pos h2]
  · unfold classifySentiment
    rw [if_neg (not_le.mpr (by linarith)), if_neg (not_le.mpr h1), if_pos h2]
  · unfold classifySentiment
    rw [if_neg (not_le.mpr (by linarith)), if_neg (not_le.mpr (by linarith)),
      if_neg (not_le.mpr h1), if_pos h2]
  · unfold classifySentiment
    rw [if_neg (not_le.mpr (by linarith)), if_neg (not_le.mpr (by linarith)),
      if_neg (not_le.mpr (by linarith)), if_neg (not_le.mpr h)]
  · rcases le_or_lt x 20 with h | h
    · exact Or.inl h
    rcases le_or_lt x 40 with h' | h'
    · exact Or.inr (Or.inl ⟨h, h'⟩)
    rcases le_or_lt x 60 with h'' | h''
    · exact Or.inr (Or.inr (Or.inl ⟨h', h''⟩))
    rcases le_or_lt x 80 with h''' | h'''
    · exact Or.inr (Or.inr (Or.inr (Or.inl ⟨h'', h'''⟩)))
    · exact Or.inr (Or.inr (Or.inr (Or.inr h''')))

/-- Witness for C7: the score 50 lies in the Neutral band. -/
theorem fear_greed_weights_and_bands_witness :
    (40 : ℚ) < 50 ∧ (50 : ℚ) ≤ 60 ∧
    classifySentiment 50 = ("Neutral", "neutral") :=
  ⟨by norm_num, by norm_num,
   fear_greed_weights_and_bands.2.2.2.2.1 50 (by norm_num) (by norm_num)⟩

/-! ## Claim C2 — metadata timestamp versus caller kwargs -/

/-- Counterexample to C2 as stated: a keyword argument named `last_updated`
replaces the freshly stamped timestamp (`dict.update` overwrites it). -/
theorem create_metadata_override_cx :
    lookupKey "last_updated"
      (createMetadata "2025-01-01T00:00:00" 0
        [("last_updated", Value.str "1999-12-31T23:59:59Z")])
      = some (Value.str "1999-12-31T23:59:59Z") ∧
    "1999-12-31T23:59:59Z" ≠ getTimestamp "2025-01-01T00:00:00" :=
  ⟨rfl, by decide⟩

/-- Claim C2, amended: whenever the caller's extra keyword arguments do not
themselves contain a `last_updated` key, the returned metadata's
`last_updated` equals the freshly stamped `get_timestamp()` value — the
current time with a trailing `"Z"` marker.  (A kwarg named `last_updated`
does replace the stamp, per the counterexample.) -/
theorem create_metadata_amended (nowIso : String) (total : ℚ)
    (kwargs : List (String × Value))
    (h : lookupKey "last_updated" kwargs = none) :
    lookupKey "last_updated" (createMetadata nowIso total kwargs)
      = some (Value.str (getTimestamp nowIso)) ∧
    getTimestamp nowIso = nowIso ++ "Z" := by
  constructor
  · unfold createMetadata
    rw [lookupKey_pyDictUpdate_none kwargs _ _ h]
    rfl
  · rfl

/-- Witness for C2 (amended): a call with an unrelated kwarg keeps the fresh
timestamp. -/
theorem create_metadata_amended_witness :
    lookupKey "last_updated" [("source", Value.str "sec")] = none ∧
    lookupKey "last_updated"
      (createMetadata "2025-01-01T00:00:00" 0 [("source", Value.str "sec")])
      = some (Value.str "2025-01-01T00:00:00Z") :=
  ⟨rfl,
   (create_metadata_amended "2025-01-01T00:00:00" 0
     [("source", Value.str "sec")] rfl).1⟩

/-! ## Claim C1 — validate-then-write gating -/

/-- Counterexample to C1 as stated: the flows save operation performs no
validation, so a document that fails Schema Registry validation (here:
`"flows"` is not registered, so validation fails closed) is nevertheless
passed to the Sink Writer, and save reports success. -/
theorem flows_save_writes_unvalidated_cx :
    DataValidator.validate (fun (_ : Unit) (_ : ℕ) => true) ⟨[]⟩ 0 "flows"
      = false ∧
    flowsSave (0 : ℕ) (fun _ => true) = (some 0, true) :=
  ⟨rfl, rfl⟩

/-- Claim C1, amended: the congress, insiders and macro save operations and
the 13F save-all loop validate before persisting — a document that fails
validation is never passed to the Sink Writer and the save reports failure
(13F skips that fund).  The flows and sentiment save operations, however,
perform no validation and always hand the document to the Sink Writer. -/
theorem save_validation_gate_amended (σ δ : Type) (check : σ → δ → Bool)
    (v : DataValidator σ) (data : δ) (writeOk : δ → Bool)
    (writeOk13 : String → δ → Bool) :
    (v.validate check data "congress" = false →
      congressSave check v data writeOk = (none, false)) ∧
    (v.validate check data "insiders" = false →
      insidersSave check v data writeOk = (none, false)) ∧
    (v.validate check data "macro" = false →
      macroDomainSave check v data writeOk = (none, false)) ∧
    (∀ funds : List (String × δ),
      ∀ p ∈ (saveAll13F check v writeOk13 funds).1,
        v.validate check p.2 "fund_13f" = true) ∧
    flowsSave data writeOk = (some data, writeOk data) ∧
    sentimentSave data writeOk = (some data, writeOk data) := by
  refine ⟨fun h => ?_, fun h => ?_, fun h => ?_, fun funds => ?_, rfl, rfl⟩
  · unfold congressSave
    rw [h]
    simp
  · unfold insidersSave
    rw [h]
    simp
  · unfold macroDomainSave
    rw [h]
    simp
  · induction funds with
    | nil =>
      intro p hp
      simp [saveAll13F] at hp
    | cons fd rest ih =>
      intro p hp
      obtain ⟨slug, d⟩ := fd
      by_cases hv : v.validate check d "fund_13f"
      · simp only [saveAll13F, if_pos hv, List.mem_cons] at hp
        rcases hp with rfl | hp
        · exact hv
        · exact ih p hp
      · simp only [saveAll13F, if_neg hv] at hp
        exact ih p hp

/-- Witness for C1 (amended): with an empty registry the congress document
fails validation and the save writes nothing and reports failure. -/
theorem save_validation_gate_amended_witness :
    DataValidator.validate (fun (_ : Unit) (_ : ℕ) => true) ⟨[]⟩ 7 "congress"
      = false ∧
    congressSave (fun (_ : Unit) (_ : ℕ) => true) ⟨[]⟩ 7 (fun _ => true)
      = (none, false) :=
  ⟨rfl,
   (save_validation_gate_amended Unit ℕ (fun _ _ => true) ⟨[]⟩ 7
     (fun _ => true) (fun _ _ => true)).1 rfl⟩

/-! ## Claim C3 — metadata total_count versus payload length -/

/-- Counterexample to C3 as stated: the flows document's metadata has
`total_count = 0` (the `create_metadata` default) even though its payload —
the ETF-flow records concatenated with the options records — has 6
records. -/
theorem flows_total_count_cx :
    lookupKey "total_count"
      (flowsFetchAll "2025-01-01T00:00:00" (sampleEtfFlows "2025-01-01")
        (sampleOptionsData "2025-01-01")).metadata = some (Value.num 0) ∧
    ((flowsFetchAll "2025-01-01T00:00:00" (sampleEtfFlows "2025-01-01")
        (sampleOptionsData "2025-01-01")).etf_flows ++
      (flowsFetchAll "2025-01-01T00:00:00" (sampleEtfFlows "2025-01-01")
        (sampleOptionsData "2025-01-01")).options).length = 6 ∧
    (0 : ℚ) ≠ 6 :=
  ⟨rfl, rfl, by norm_num⟩

/-- Claim C3, amended: the congress and insiders documents carry
`total_count` equal to the length of their transaction sequence at the
moment the metadata is built; the flows document instead carries the default
`total_count = 0` together with the per-sub-source counts `etf_count` and
`options_count` (its metadata never reflects the concatenated payload
length). -/
theorem metadata_total_count_amended :
    (∀ (nowIso : String) (house senate : List Transaction),
      lookupKey "total_count" (congressFetchAll nowIso house senate).metadata
        = some (Value.num
            ((congressFetchAll nowIso house senate).transactions.length : ℚ))) ∧
    (∀ (nowIso : String) (txs : List InsiderRec),
      lookupKey "total_count" (insidersFetchAll nowIso txs).metadata
        = some (Value.num
            ((insidersFetchAll nowIso txs).transactions.length : ℚ))) ∧
    (∀ (nowIso : String) (etf opts : List Value),
      lookupKey "total_count" (flowsFetchAll nowIso etf opts).metadata
        = some (Value.num 0) ∧
      lookupKey "etf_count" (flowsFetchAll nowIso etf opts).metadata
        = some (Value.num (etf.length : ℚ)) ∧
      lookupKey "options_count" (flowsFetchAll nowIso etf opts).metadata
        = some (Value.num (opts.length : ℚ))) :=
  ⟨fun _ _ _ => rfl, fun _ _ => rfl, fun _ _ _ => ⟨rfl, rfl, rfl⟩⟩

/-! ## Claim C5 — transaction-type normalization is total -/

/-- Claim C5: `_normalize_transaction_type` is total on strings: every input
maps to exactly one of purchase / sale / exchange by case-insensitive
substring match, in the source's branch order, with `"purchase"` as the
default for everything else (including the empty string). -/
theorem normalize_transaction_type_total (raw : String) :
    (normalizeTransactionType raw = "purchase" ∨
     normalizeTransactionType raw = "sale" ∨
     normalizeTransactionType raw = "exchange") ∧
    ((containsSeq (pyLower raw.data) "purchase".data = true ∨
      containsSeq (pyLower raw.data) "buy".data = true) →
      normalizeTransactionType raw = "purchase") ∧
    (containsSeq (pyLower raw.data) "purchase".data = false →
     containsSeq (pyLower raw.data) "buy".data = false →
     (containsSeq (pyLower raw.data) "sale".data = true ∨
      containsSeq (pyLower raw.data) "sell".data = true) →
      normalizeTransactionType raw = "sale") ∧
    (containsSeq (pyLower raw.data) "purchase".data = false →
     containsSeq (pyLower raw.data) "buy".data = false →
     containsSeq (pyLower raw.data) "sale".data = false →
     containsSeq (pyLower raw.data) "sell".data = false →
     containsSeq (pyLower raw.data) "exchange".data = true →
      normalizeTransactionType raw = "exchange") ∧
    (containsSeq (pyLower raw.data) "purchase".data = false →
     containsSeq (pyLower raw.data) "buy".data = false →
     containsSeq (pyLower raw.data) "sale".data = false →
     containsSeq (pyLower raw.data) "sell".data = false →
     containsSeq (pyLower raw.data) "exchange".data = false →
      normalizeTransactionType raw = "purchase") := by
  by_cases h1 : containsSeq (pyLower raw.data) "purchase".data <;>
    by_cases h2 : containsSeq (pyLower raw.data) "buy".data <;>
    by_cases h3 : containsSeq (pyLower raw.data) "sale".data <;>
    by_cases h4 : containsSeq (pyLower raw.data) "sell".data <;>
    by_cases h5 : containsSeq (pyLower raw.data) "exchange".data <;>
    simp [normalizeTransactionType, h1, h2, h3, h4, h5]

/-- Witness for C5: a string containing `"sale"` but neither `"purchase"`
nor `"buy"` normalizes to `"sale"`. -/
theorem normalize_transaction_type_total_witness :
    containsSeq (pyLower ("Sale (Partial)".data)) "purchase".data = false ∧
    containsSeq (pyLower ("Sale (Partial)".data)) "buy".data = false ∧
    containsSeq (pyLower ("Sale (Partial)".data)) "sale".data = true ∧
    normalizeTransactionType "Sale (Partial)" = "sale" :=
  ⟨by decide, by decide, by decide,
   (normalize_transaction_type_total "Sale (Partial)").2.2.1 (by decide)
     (by decide) (Or.inl (by decide))⟩

/-! ## `str.split()` lemmas for the slug claims -/

/-- Skipping a leading whitespace character does not change `str.split()`. -/
theorem pySplitWs_cons_ws (c : Char) (cs : List Char)
    (h : pyIsSpace c = true) :
    pySplitWs (c :: cs) = pySplitWs cs := by
  unfold pySplitWs
  rw [List.foldr_cons]
  rcases hacc : cs.foldr splitWsStep ([], []) with ⟨t, toks⟩
  unfold splitWsStep
  rw [if_pos h]
  cases t with
  | nil => rfl
  | cons x xs => rfl

/-- A leading non-whitespace character extends the first token of
`str.split()`. -/
theorem pySplitWs_cons_not_ws (c : Char) (cs : List Char)
    (h : pyIsSpace c = false) :
    pySplitWs (c :: cs)
      = (c :: (cs.foldr splitWsStep ([], [])).1)
          :: (cs.foldr splitWsStep ([], [])).2 := by
  unfold pySplitWs
  rw [List.foldr_cons]
  rcases hacc : cs.foldr splitWsStep ([], []) with ⟨t, toks⟩
  unfold splitWsStep
  rw [if_neg (by simp [h])]

/-- On a whitespace-free list the split fold just rebuilds the list. -/
theorem foldr_splitWsStep_no_ws (cs : List Char)
    (h : ∀ c ∈ cs, pyIsSpace c = false) :
    cs.foldr splitWsStep ([], []) = (cs, []) := by
  induction cs with
  | nil => rfl
  | cons c rest ih =>
    rw [List.foldr_cons, ih (fun x hx => h x (List.mem_cons_of_mem c hx))]
    unfold splitWsStep
    rw [if_neg (by simp [h c (List.mem_cons_self c rest)])]

/-- `str.split()` of a non-empty whitespace-free string is that single
token. -/
theorem pySplitWs_single (cs : List Char) (hne : cs ≠ [])
    (h : ∀ c ∈ cs, pyIsSpace c = false) :
    pySplitWs cs = [cs] := by
  cases cs with
  | nil => exact absurd rfl hne
  | cons c rest =>
    rw [pySplitWs_cons_not_ws c rest (h c (List.mem_cons_self c rest)),
      foldr_splitWsStep_no_ws rest
        (fun x hx => h x (List.mem_cons_of_mem c hx))]

/-- `str.split()` returns no token exactly on all-whitespace input. -/
theorem pySplitWs_eq_nil_iff (cs : List Char) :
    pySplitWs cs = [] ↔ ∀ c ∈ cs, pyIsSpace c = true := by
  constructor
  · induction cs with
    | nil => intro _ c hc; cases hc
    | cons c rest ih =>
      intro h x hx
      cases hws : pyIsSpace c with
      | true =>
        rw [pySplitWs_cons_ws c rest hws] at h
        rcases List.mem_cons.mp hx with rfl | hx'
        · exact hws
        · exact ih h x hx'
      | false =>
        rw [pySplitWs_cons_not_ws c rest hws] at h
        cases h
  · induction cs with
    | nil => intro _; rfl
    | cons c rest ih =>
      intro h
      rw [pySplitWs_cons_ws c rest (h c (List.mem_cons_self c rest))]
      exact ih (fun x hx => h x (List.mem_cons_of_mem c hx))

/-! ## Character-level lemmas for the slug claims -/

/-- A hit in a character table is a member of the table. -/
theorem lookupChar_mem (c l : Char) (table : List (Char × Char))
    (h : lookupChar c table = some l) : (c, l) ∈ table := by
  induction table with
  | nil => cases h
  | cons p rest ih =>
    obtain ⟨a, b⟩ := p
    unfold lookupChar at h
    by_cases hc : c = a
    · rw [if_pos hc] at h
      cases h
      exact hc ▸ List.mem_cons_self _ _
    · rw [if_neg hc] at h
      exact List.mem_cons_of_mem _ (ih h)

/-- No lowercase partner in the table is itself an uppercase key. -/
theorem lowerTable_snd_not_key :
    ∀ p ∈ lowerTable, lookupChar p.2 lowerTable = none := by decide

/-- Lowering a character twice is the same as lowering it once. -/
theorem lowerChar_idem (c : Char) : lowerChar (lowerChar c) = lowerChar c := by
  rcases hl : lookupChar c lowerTable with _ | l
  · have hc : lowerChar c = c := by
      unfold lowerChar
      rw [hl]
      rfl
    rw [hc, hc]
  · have hmem := lookupChar_mem c l lowerTable hl
    have hnone := lowerTable_snd_not_key (c, l) hmem
    have hc : lowerChar c = l := by
      unfold lowerChar
      rw [hl]
      rfl
    rw [hc]
    unfold lowerChar
    rw [hnone]
    rfl

/-- No Python whitespace character is (ASCII-model) alphanumeric. -/
theorem pySpace_not_alnum : ∀ w ∈ pySpaceChars, pyIsAlnum w = false := by
  decide

/-- An (ASCII-model) alphanumeric character is not Python whitespace. -/
theorem pyIsAlnum_not_space (c : Char) (h : pyIsAlnum c = true) :
    pyIsSpace c = false := by
  cases hws : pyIsSpace c with
  | false => rfl
  | true =>
    rcases List.any_eq_true.mp hws with ⟨w, hw, he⟩
    have hcw : c = w := of_decide_eq_true he
    subst hcw
    rw [pySpace_not_alnum c hw] at h
    cases h

/-- Mapping a function that fixes every element of a list is the
identity. -/
theorem map_fix_eq_self {α : Type} (f : α → α) (l : List α)
    (h : ∀ x ∈ l, f x = x) : l.map f = l := by
  induction l with
  | nil => rfl
  | cons x rest ih =>
    rw [List.map_cons, h x (List.mem_cons_self x rest),
      ih (fun y hy => h y (List.mem_cons_of_mem x hy))]

/-- Every character of a derived slug is (ASCII-model) alphanumeric and
fixed by lowering. -/
theorem slug_chars_alnum_lower (name slug : List Char)
    (h : createSlugChars name = some slug) :
    ∀ c ∈ slug, pyIsAlnum c = true ∧ lowerChar c = c := by
  unfold createSlugChars at h
  rcases hs : pySplitWs name with _ | ⟨t, rest⟩
  · rw [hs] at h
    cases h
  · rw [hs] at h
    cases h
    intro c hc
    have hfilter := List.mem_filter.mp hc
    refine ⟨hfilter.2, ?_⟩
    rcases List.mem_map.mp hfilter.1 with ⟨c0, _, rfl⟩
    exact lowerChar_idem c0

/-! ## Claim C9 — slug derivation idempotence -/

/-- Counterexample to C9 as stated: the name `"$$$ Capital"` derives the
empty slug, and deriving again from that empty slug hits the `IndexError`
branch instead of yielding the same slug. -/
theorem create_slug_not_idempotent_cx :
    createSlug "$$$ Capital" = some "" ∧
    createSlug "" = none ∧
    (none : Option String) ≠ some "" :=
  ⟨by decide, by decide, by decide⟩

/-- Claim C9, amended: slug derivation is idempotent on every fund name
whose derived slug is non-empty (deriving from such a slug yields it again),
and every derived slug contains only (ASCII-model) alphanumeric characters
that are fixed by lowering; however, for a name whose first token contains
no alphanumeric character the derived slug is empty and a second derivation
fails (`split()[0]` raises) instead of returning it. -/
theorem create_slug_amended :
    (∀ name slug : List Char, createSlugChars name = some slug → slug ≠ [] →
      createSlugChars slug = some slug) ∧
    (∀ name slug : List Char, createSlugChars name = some slug →
      ∀ c ∈ slug, pyIsAlnum c = true ∧ lowerChar c = c) ∧
    createSlugChars [] = none := by
  refine ⟨fun name slug h hne => ?_, slug_chars_alnum_lower, rfl⟩
  have hchars := slug_chars_alnum_lower name slug h
  have hnws : ∀ c ∈ slug, pyIsSpace c = false :=
    fun c hc => pyIsAlnum_not_space c (hchars c hc).1
  unfold createSlugChars
  rw [pySplitWs_single slug hne hnws]
  have hlow : pyLower slug = slug :=
    map_fix_eq_self lowerChar slug (fun c hc => (hchars c hc).2)
  show some ((pyLower slug).filter pyIsAlnum) = some slug
  rw [hlow, List.filter_eq_self.mpr (fun c hc => (hchars c hc).1)]

/-- Witness for C9 (amended): the slug of `"Scion Asset Management"` is
`"scion"`, and deriving again from `"scion"` returns it unchanged. -/
theorem create_slug_amended_witness :
    createSlugChars ("Scion Asset Management".data) = some ("scion".data) ∧
    ("scion".data : List Char) ≠ [] ∧
    createSlugChars ("scion".data) = some ("scion".data) :=
  ⟨by decide, by decide,
   create_slug_amended.1 ("Scion Asset Management".data) ("scion".data)
     (by decide) (by decide)⟩

/-! ## Claim C10 — slug derivation is partial exactly on token-free names -/

/-- Claim C10: `_create_slug` returns a slug for every name containing a
character that is not `str.isspace()` whitespace, and hits the error branch
(the `IndexError` from `split()[0]`, modelled by `none`) exactly for the
empty or all-whitespace names; under the non-empty-token precondition the
failure branch is unreachable. -/
theorem create_slug_defined_iff :
    (∀ name : List Char, (∃ c ∈ name, pyIsSpace c = false) →
      ∃ s, createSlugChars name = some s) ∧
    (∀ name : List Char, (∀ c ∈ name, pyIsSpace c = true) →
      createSlugChars name = none) := by
  constructor
  · intro name h
    rcases h with ⟨c, hc, hcw⟩
    rcases hs : pySplitWs name with _ | ⟨t, rest⟩
    · have := (pySplitWs_eq_nil_iff name).mp hs c hc
      rw [this] at hcw
      cases hcw
    · exact ⟨(pyLower t).filter pyIsAlnum, by unfold createSlugChars; rw [hs]⟩
  · intro name h
    unfold createSlugChars
    rw [(pySplitWs_eq_nil_iff name).mpr h]

/-- Witness for C10: a real fund name derives a slug; the one-space name
hits the error branch. -/
theorem create_slug_defined_iff_witness :
    (∃ c ∈ ("Berkshire Hathaway".data), pyIsSpace c = false) ∧
    (∃ s, createSlugChars ("Berkshire Hathaway".data) = some s) ∧
    (∀ c ∈ (" ".data : List Char), pyIsSpace c = true) ∧
    createSlugChars (" ".data) = none :=
  ⟨by decide, create_slug_defined_iff.1 ("Berkshire Hathaway".data) (by decide),
   by decide, create_slug_defined_iff.2 (" ".data) (by decide)⟩

/-! ## Sorting lemmas for the aggregate step (claim C8) -/

/-- The empty string is the lexicographically smallest string. -/
theorem str_empty_le (s : String) : "" ≤ s := by
  rw [String.le_iff_toList_le]
  cases h : s.toList with
  | nil => exact le_of_eq (by rw [String.toList_empty])
  | cons c cs =>
    rw [String.toList_empty]
    exact le_of_lt (List.nil_lt_cons c cs)

/-- Inserting into a list is a permutation of consing. -/
theorem insertDesc_perm {α : Type} (key : α → String) (r : α) (l : List α) :
    (insertDesc key r l).Perm (r :: l) := by
  induction l with
  | nil => exact List.Perm.refl _
  | cons x xs ih =>
    unfold insertDesc
    by_cases h : key r < key x
    · rw [if_pos h]
      exact (ih.cons x).trans (List.Perm.swap r x xs)
    · rw [if_neg h]

/-- Inserting preserves the descending-by-key pairwise order. -/
theorem insertDesc_sorted {α : Type} (key : α → String) (r : α) (l : List α)
    (hl : l.Pairwise (fun a b => key b ≤ key a)) :
    (insertDesc key r l).Pairwise (fun a b => key b ≤ key a) := by
  induction l with
  | nil => simp [insertDesc]
  | cons x xs ih =>
    rcases List.pairwise_cons.mp hl with ⟨hx, hxs⟩
    unfold insertDesc
    by_cases h : key r < key x
    · rw [if_pos h]
      refine List.pairwise_cons.mpr ⟨?_, ih hxs⟩
      intro y hy
      have hy' : y = r ∨ y ∈ xs := by
        have hmem := (insertDesc_perm key r xs).mem_iff.mp hy
        simpa using hmem
      rcases hy' with rfl | hy'
      · exact le_of_lt h
      · exact hx y hy'
    · rw [if_neg h]
      refine List.pairwise_cons.mpr ⟨?_, hl⟩
      intro y hy
      rcases List.mem_cons.mp hy with rfl | hy'
      · exact not_lt.mp h
      · exact le_trans (hx y hy') (not_lt.mp h)

/-- The stable descending sort permutes its input. -/
theorem sortByKeyDesc_perm {α : Type} (key : α → String) (l : List α) :
    (sortByKeyDesc key l).Perm l := by
  induction l with
  | nil => exact List.Perm.refl _
  | cons x xs ih =>
    exact (insertDesc_perm key x (sortByKeyDesc key xs)).trans (ih.cons x)

/-- The stable descending sort is descending by key. -/
theorem sortByKeyDesc_sorted {α : Type} (key : α → String) (l : List α) :
    (sortByKeyDesc key l).Pairwise (fun a b => key b ≤ key a) := by
  induction l with
  | nil => simp [sortByKeyDesc]
  | cons x xs ih => exact insertDesc_sorted key x (sortByKeyDesc key xs) ih

/-- In a descending list, once an empty key appears every later key is also
empty; equivalently, an empty-keyed record never precedes a record with a
non-empty date. -/
theorem sorted_empty_placement {α : Type} (key : α → String) (l : List α)
    (h : l.Pairwise (fun a b => key b ≤ key a)) :
    l.Pairwise (fun a b => key a = "" → key b = "") := by
  refine h.imp ?_
  intro a b hle ha
  rw [ha] at hle
  exact le_antisymm hle (str_empty_le (key b))

/-! ## Claim C8 — the aggregate step sorts descending by date -/

/-- Claim C8: the aggregate step of `fetch_all` (congress and insiders)
produces a permutation of the concatenated sub-source records, sorted in
descending lexicographic order by the `x.get("date", "")` key; a record
missing a date gets the empty key — the lexicographically smallest string —
and hence never precedes a record whose key is non-empty. -/
theorem aggregate_sorted_desc :
    (∀ (nowIso : String) (house senate : List Transaction),
      ((congressFetchAll nowIso house senate).transactions).Perm
        (house ++ senate) ∧
      ((congressFetchAll nowIso house senate).transactions).Pairwise
        (fun a b => dateKey b ≤ dateKey a) ∧
      (∀ t : Transaction, t.date = none → dateKey t = "") ∧
      (∀ s : String, "" ≤ s) ∧
      ((congressFetchAll nowIso house senate).transactions).Pairwise
        (fun a b => dateKey a = "" → dateKey b = "")) ∧
    (∀ (nowIso : String) (txs : List InsiderRec),
      ((insidersFetchAll nowIso txs).transactions).Perm txs ∧
      ((insidersFetchAll nowIso txs).transactions).Pairwise
        (fun a b => insiderDateKey b ≤ insiderDateKey a) ∧
      (∀ r : InsiderRec, r.date = none → insiderDateKey r = "") ∧
      ((insidersFetchAll nowIso txs).transactions).Pairwise
        (fun a b => insiderDateKey a = "" → insiderDateKey b = "")) := by
  constructor
  · intro nowIso house senate
    refine ⟨sortByKeyDesc_perm dateKey (house ++ senate),
      sortByKeyDesc_sorted dateKey (house ++ senate),
      fun t ht => by rw [dateKey, ht]; rfl,
      str_empty_le,
      sorted_empty_placement dateKey _
        (sortByKeyDesc_sorted dateKey (house ++ senate))⟩
  · intro nowIso txs
    refine ⟨sortByKeyDesc_perm insiderDateKey txs,
      sortByKeyDesc_sorted insiderDateKey txs,
      fun r hr => by rw [insiderDateKey, hr]; rfl,
      sorted_empty_placement insiderDateKey _
        (sortByKeyDesc_sorted insiderDateKey txs)⟩

/-- Witness for C8: a two-record run (one House record dated 2025-01-05, one
Senate record with a missing date) is sorted with the dated record first. -/
theorem aggregate_sorted_desc_witness :
    ((congressFetchAll "2025-01-01T00:00:00"
        [⟨"A", "House", "XYZ", "Unknown", "purchase", "N/A",
          some "2025-01-05", "", "", 1001, 15000⟩]
        [⟨"B", "Senate", "QQQ", "Unknown", "sale", "N/A",
          none, "", "", 0, 0⟩]).transactions).Pairwise
      (fun a b => dateKey b ≤ dateKey a) :=
  (aggregate_sorted_desc.1 "2025-01-01T00:00:00"
    [⟨"A", "House", "XYZ", "Unknown", "purchase", "N/A",
      some "2025-01-05", "", "", 1001, 15000⟩]
    [⟨"B", "Senate", "QQQ", "Unknown", "sale", "N/A",
      none, "", "", 0, 0⟩]).2.1

/-! ## Character and list lemmas for the amount-range claim (C4) -/

/-- A digit character is none of the special characters handled by
`_parse_amount_range`, and is not whitespace. -/
theorem isDigit_char_facts (c : Char) (h : c.isDigit = true) :
    c ≠ '$' ∧ c ≠ ',' ∧ c ≠ '-' ∧ c ≠ '+' ∧ c.isWhitespace = false := by
  refine ⟨fun e => ?_, fun e => ?_, fun e => ?_, fun e => ?_, ?_⟩
  · rw [e] at h
    exact absurd h (by decide)
  · rw [e] at h
    exact absurd h (by decide)
  · rw [e] at h
    exact absurd h (by decide)
  · rw [e] at h
    exact absurd h (by decide)
  · cases hws : c.isWhitespace with
    | false => rfl
    | true =>
      have hd : ((c = ' ' ∨ c = '\t') ∨ c = '\r') ∨ c = '\n' := by
        simpa [Char.isWhitespace] using hws
      rcases hd with ((rfl | rfl) | rfl) | rfl <;> exact absurd h (by decide)

/-- `cleanAmount` on a cons: `$` and `,` are dropped, all else kept. -/
theorem cleanAmount_cons (c : Char) (l : List Char) :
    cleanAmount (c :: l) =
      if c = '$' ∨ c = ',' then cleanAmount l else c :: cleanAmount l := by
  by_cases h1 : c = '$'
  · subst h1
    simp [cleanAmount, List.filter_cons]
  · by_cases h2 : c = ','
    · subst h2
      simp [cleanAmount, List.filter_cons]
    · simp [cleanAmount, List.filter_cons, h1, h2]

/-- `cleanAmount` distributes over append. -/
theorem cleanAmount_append (xs ys : List Char) :
    cleanAmount (xs ++ ys) = cleanAmount xs ++ cleanAmount ys := by
  simp [cleanAmount, List.filter_append]

/-- On a list of digits, commas and dollar signs, `cleanAmount` keeps
exactly the digits. -/
theorem cleanAmount_eq_digits (a : List Char)
    (h : ∀ c ∈ a, c.isDigit = true ∨ c = ',' ∨ c = '$') :
    cleanAmount a = a.filter Char.isDigit := by
  induction a with
  | nil => rfl
  | cons c rest ih =>
    have hrest := ih (fun x hx => h x (List.mem_cons_of_mem c hx))
    rcases h c (List.mem_cons_self c rest) with hd | rfl | rfl
    · have hf := isDigit_char_facts c hd
      rw [cleanAmount_cons, if_neg (by tauto), List.filter_cons, hrest]
      rw [if_pos hd]
    · have hcomma : Char.isDigit ',' = false := by decide
      rw [cleanAmount_cons, if_pos (Or.inr rfl), List.filter_cons, hrest]
      rw [hcomma]
      rfl
    · have hdollar : Char.isDigit '$' = false := by decide
      rw [cleanAmount_cons, if_pos (Or.inl rfl), List.filter_cons, hrest]
      rw [hdollar]
      rfl

/-- `takeWhile` keeps a list all of whose elements satisfy the test. -/
theorem takeWhile_all {α : Type} (p : α → Bool) (l : List α)
    (h : ∀ c ∈ l, p c = true) : l.takeWhile p = l := by
  induction l with
  | nil => rfl
  | cons c rest ih =>
    rw [List.takeWhile_cons, h c (List.mem_cons_self c rest)]
    simp only [if_true]
    rw [ih (fun x hx => h x (List.mem_cons_of_mem c hx))]

/-- `dropWhile` exhausts a list all of whose elements satisfy the test. -/
theorem dropWhile_all {α : Type} (p : α → Bool) (l : List α)
    (h : ∀ c ∈ l, p c = true) : l.dropWhile p = [] := by
  induction l with
  | nil => rfl
  | cons c rest ih =>
    rw [List.dropWhile_cons, h c (List.mem_cons_self c rest)]
    simp only [if_true]
    exact ih (fun x hx => h x (List.mem_cons_of_mem c hx))

/-- `dropWhile` keeps a list none of whose elements satisfies the test. -/
theorem dropWhile_none {α : Type} (p : α → Bool) (l : List α)
    (h : ∀ c ∈ l, p c = false) : l.dropWhile p = l := by
  cases l with
  | nil => rfl
  | cons c rest =>
    rw [List.dropWhile_cons, h c (List.mem_cons_self c rest)]
    simp only [Bool.false_eq_true, if_false]

/-- `str.strip()` of a whitespace-free string is itself. -/
theorem trimChars_no_ws (l : List Char)
    (h : ∀ c ∈ l, c.isWhitespace = false) : trimChars l = l := by
  unfold trimChars
  rw [dropWhile_none Char.isWhitespace l h,
    dropWhile_none Char.isWhitespace l.reverse
      (fun c hc => h c (List.mem_reverse.mp hc)),
    List.reverse_reverse]

/-- `str.strip()` removes a single trailing space from a whitespace-free
string. -/
theorem trimChars_append_space (l : List Char)
    (h : ∀ c ∈ l, c.isWhitespace = false) : trimChars (l ++ [' ']) = l := by
  cases l with
  | nil => rfl
  | cons c rest =>
    unfold trimChars
    have hc : c.isWhitespace = false := h c (List.mem_cons_self c rest)
    rw [List.cons_append, List.dropWhile_cons, hc]
    simp only [Bool.false_eq_true, if_false]
    rw [show ((c :: (rest ++ [' '])).reverse = ' ' :: (rest.reverse ++ [c]))
        by simp]
    rw [List.dropWhile_cons]
    simp only [show (' ' : Char).isWhitespace = true by decide, if_true]
    rw [dropWhile_none Char.isWhitespace (rest.reverse ++ [c]) ?hmem]
    · simp
    case hmem =>
      intro x hx
      rcases List.mem_append.mp hx with hx' | hx'
      · exact h x (List.mem_cons_of_mem c (List.mem_reverse.mp hx'))
      · rw [List.mem_singleton.mp hx']
        exact hc

/-- `str.strip()` removes a single leading space from a whitespace-free
string. -/
theorem trimChars_cons_space (l : List Char)
    (h : ∀ c ∈ l, c.isWhitespace = false) : trimChars (' ' :: l) = l := by
  unfold trimChars
  rw [List.dropWhile_cons]
  simp only [show (' ' : Char).isWhitespace = true by decide, if_true]
  rw [dropWhile_none Char.isWhitespace l h,
    dropWhile_none Char.isWhitespace l.reverse
      (fun c hc => h c (List.mem_reverse.mp hc)),
    List.reverse_reverse]

/-- The unsigned float parser accepts a non-empty digit string and returns
its numeric value. -/
theorem pyFloatCore_digits (l : List Char) (hne : l ≠ [])
    (h : ∀ c ∈ l, c.isDigit = true) :
    pyFloatCore l = some ((natVal l : ℚ)) := by
  simp only [pyFloatCore]
  rw [dropWhile_all Char.isDigit l h, takeWhile_all Char.isDigit l h]
  have hempty : l.isEmpty = false := by
    cases l with
    | nil => exact absurd rfl hne
    | cons c rest => rfl
  rw [hempty]
  rfl

/-- `float(...)` accepts a non-empty digit string and returns its numeric
value. -/
theorem pyFloat_digits (l : List Char) (hne : l ≠ [])
    (h : ∀ c ∈ l, c.isDigit = true) :
    pyFloat l = some ((natVal l : ℚ)) := by
  unfold pyFloat
  rw [trimChars_no_ws l (fun c hc => (isDigit_char_facts c (h c hc)).2.2.2.2)]
  cases l with
  | nil => exact absurd rfl hne
  | cons c rest =>
    have hf := isDigit_char_facts c (h c (List.mem_cons_self c rest))
    show (if c = '+' then pyFloatCore rest
      else if c = '-' then (pyFloatCore rest).map (fun q => -q)
      else pyFloatCore (c :: rest)) = some ((natVal (c :: rest) : ℚ))
    rw [if_neg hf.2.2.2.1, if_neg hf.2.2.1]
    exact pyFloatCore_digits (c :: rest) hne h

/-- `str.split(sep)` of a separator-free string is that single piece. -/
theorem splitOnChar_not_mem (sep : Char) (l : List Char) (h : sep ∉ l) :
    splitOnChar sep l = [l] := by
  induction l with
  | nil => rfl
  | cons c rest ih =>
    have hc : ¬c = sep := fun e => h (e ▸ List.mem_cons_self c rest)
    unfold splitOnChar
    rw [if_neg hc, ih (fun hm => h (List.mem_cons_of_mem c hm))]

/-- The cons-step equation of `splitOnChar`. -/
theorem splitOnChar_cons (sep c : Char) (rest : List Char) :
    splitOnChar sep (c :: rest) =
      if c = sep then [] :: splitOnChar sep rest
      else
        match splitOnChar sep rest with
        | [] => [[c]]
        | p :: ps => (c :: p) :: ps := rfl

/-- `str.split(sep)` at the first separator occurrence: the separator-free
head becomes the first piece. -/
theorem splitOnChar_append (sep : Char) (xs ys : List Char) (h : sep ∉ xs) :
    splitOnChar sep (xs ++ sep :: ys) = xs :: splitOnChar sep ys := by
  induction xs with
  | nil =>
    show splitOnChar sep (sep :: ys) = [] :: splitOnChar sep ys
    rw [splitOnChar_cons, if_pos rfl]
  | cons c rest ih =>
    have hc : ¬c = sep := fun e => h (e ▸ List.mem_cons_self c rest)
    show splitOnChar sep (c :: (rest ++ sep :: ys)) = _
    rw [splitOnChar_cons, if_neg hc,
      ih (fun hm => h (List.mem_cons_of_mem c hm))]

/-- `parseAmountRangeChars` with its `let` binding inlined. -/
theorem parseAmountRangeChars_def (cs : List Char) :
    parseAmountRangeChars cs =
      if '-' ∈ cleanAmount cs then
        match splitOnChar '-' (cleanAmount cs) with
        | p0 :: p1 :: _ =>
          match pyFloat (trimChars p0), pyFloat (trimChars p1) with
          | some a, some b => (a, b)
          | _, _ => (0, 0)
        | _ => (0, 0)
      else
        match pyFloat (trimChars (cleanAmount cs)) with
        | some v => (v, v)
        | none => (0, 0) := rfl

/-! ## Claim C4 — amount-range parsing -/

/-- Counterexample to C4 as stated: `"-5"` is a single-sided numeric string
(`float("-5")` succeeds, as `pyFloat` shows), yet `_parse_amount_range`
takes the hyphen branch, `float("")` raises, and the `except` branch returns
`(0, 0)` rather than `(-5, -5)`. -/
theorem parse_amount_negative_cx :
    pyFloat ("-5".data) = some (-5) ∧
    parseAmountRange "-5" = (0, 0) ∧
    ((0 : ℚ), (0 : ℚ)) ≠ ((-5 : ℚ), (-5 : ℚ)) :=
  ⟨by decide, by decide, by decide⟩

/-- Claim C4, amended: for every two-sided string `"$a - $b"` whose sides
are (nonnegative) decimal numerals with optional comma separators and
dollar signs, parsing yields `(float(a), float(b))`; for every single-sided
such numeral string it yields `(v, v)`; unparsable strings (such as the
source's `"N/A"` default and the empty string) yield `(0, 0)`; and the
function is total, so it never raises.  A *negative* single-sided numeral,
however, falls into the hyphen branch and yields `(0, 0)`, per the
counterexample. -/
theorem parse_amount_range_amended :
    (∀ a b : List Char,
      (∀ c ∈ a, c.isDigit = true ∨ c = ',' ∨ c = '$') →
      (∃ c ∈ a, c.isDigit = true) →
      (∀ c ∈ b, c.isDigit = true ∨ c = ',' ∨ c = '$') →
      (∃ c ∈ b, c.isDigit = true) →
      parseAmountRangeChars ('$' :: (a ++ (' ' :: '-' :: ' ' :: '$' :: b)))
        = ((natVal (a.filter Char.isDigit) : ℚ),
           (natVal (b.filter Char.isDigit) : ℚ))) ∧
    (∀ a : List Char,
      (∀ c ∈ a, c.isDigit = true ∨ c = ',' ∨ c = '$') →
      (∃ c ∈ a, c.isDigit = true) →
      parseAmountRangeChars a
        = ((natVal (a.filter Char.isDigit) : ℚ),
           (natVal (a.filter Char.isDigit) : ℚ))) ∧
    parseAmountRange "N/A" = (0, 0) ∧
    parseAmountRange "" = (0, 0) := by
  have digitsOf : ∀ l : List Char, ∀ c ∈ l.filter Char.isDigit,
      c.isDigit = true := fun l c hc => (List.mem_filter.mp hc).2
  have neOf : ∀ l : List Char, (∃ c ∈ l, c.isDigit = true) →
      l.filter Char.isDigit ≠ [] := by
    intro l hl
    rcases hl with ⟨c, hc, hcd⟩
    exact List.ne_nil_of_mem (List.mem_filter.mpr ⟨hc, hcd⟩)
  have noWsOf : ∀ l : List Char, ∀ c ∈ l.filter Char.isDigit,
      c.isWhitespace = false :=
    fun l c hc => (isDigit_char_facts c (digitsOf l c hc)).2.2.2.2
  have noHyphenOf : ∀ l : List Char, '-' ∉ l.filter Char.isDigit := by
    intro l h'
    exact absurd (digitsOf l '-' h') (by decide)
  refine ⟨?_, ?_, by decide, by decide⟩
  · intro a b ha hda hb hdb
    have hclean : cleanAmount ('$' :: (a ++ (' ' :: '-' :: ' ' :: '$' :: b)))
        = (a.filter Char.isDigit)
            ++ (' ' :: '-' :: ' ' :: b.filter Char.isDigit) := by
      rw [cleanAmount_cons, if_pos (Or.inl rfl), cleanAmount_append,
        cleanAmount_eq_digits a ha, cleanAmount_cons, if_neg (by decide),
        cleanAmount_cons, if_neg (by decide), cleanAmount_cons,
        if_neg (by decide), cleanAmount_cons, if_pos (Or.inl rfl),
        cleanAmount_eq_digits b hb]
    rw [parseAmountRangeChars_def, hclean, if_pos (by simp)]
    rw [show (a.filter Char.isDigit)
          ++ (' ' :: '-' :: ' ' :: b.filter Char.isDigit)
        = ((a.filter Char.isDigit) ++ [' '])
          ++ ('-' :: (' ' :: b.filter Char.isDigit)) by simp]
    have hnot1 : '-' ∉ (a.filter Char.isDigit) ++ [' '] := by
      intro hmem
      rcases List.mem_append.mp hmem with h' | h'
      · exact noHyphenOf a h'
      · cases List.mem_singleton.mp h'
    have hnot2 : '-' ∉ (' ' :: b.filter Char.isDigit) := by
      intro hmem
      rcases List.mem_cons.mp hmem with h' | h'
      · cases h'
      · exact noHyphenOf b h'
    rw [splitOnChar_append '-' _ _ hnot1, splitOnChar_not_mem '-' _ hnot2]
    show (match pyFloat (trimChars ((a.filter Char.isDigit) ++ [' '])),
        pyFloat (trimChars (' ' :: b.filter Char.isDigit)) with
      | some a, some b => (a, b)
      | _, _ => ((0 : ℚ), (0 : ℚ))) = _
    rw [trimChars_append_space _ (noWsOf a),
      trimChars_cons_space _ (noWsOf b),
      pyFloat_digits _ (neOf a hda) (digitsOf a),
      pyFloat_digits _ (neOf b hdb) (digitsOf b)]
  · intro a ha hda
    rw [parseAmountRangeChars_def, cleanAmount_eq_digits a ha,
      if_neg (noHyphenOf a),
      trimChars_no_ws _ (noWsOf a),
      pyFloat_digits _ (neOf a hda) (digitsOf a)]

/-- Witness for C4 (amended): the range string `"$1,001 - $15,000"` parses
to `(1001, 15000)`. -/
theorem parse_amount_range_amended_witness :
    parseAmountRangeChars
        ('$' :: ("1,001".data ++ (' ' :: '-' :: ' ' :: '$' :: "15,000".data)))
      = ((1001 : ℚ), (15000 : ℚ)) := by
  have h := parse_amount_range_amended.1 "1,001".data "15,000".data
    (by decide) (by decide) (by decide) (by decide)
  rw [h]
  have h1 : natVal ("1,001".data.filter Char.isDigit) = 1001 := by decide
  have h2 : natVal ("15,000".data.filter Char.isDigit) = 15000 := by decide
  rw [h1, h2]
  norm_num

end MarketRadar

